import Mathlib

/-!
Shallow embedding of the allow-list matching, identity, listing, bulk-ingestion
and reconciliation core of the acapy-endorser-service repository, with theorems
checking the natural-language specification against it.

Source files embedded directly: `endorser/api/endpoints/routes/allow.py` and
`endorser/api/endpoints/routes/admin.py`.  The service and model modules
(`api/services/auto_state_handlers.py`, `api/services/allow_lists.py`,
`api/db/models/allow.py`) are not part of the provided sources; only their unit
tests are.  Definitions for those parts are modelled from the specification (and
pinned by the repository's own unit tests where the tests fix exact formulas);
each such definition carries a doc comment saying so.
-/

set_option maxRecDepth 100000

namespace Endorser

/-! ## Matcher (spec 4.2)

`check_auto_endorse` lives in `api/services/auto_state_handlers.py`, which is
absent from the provided sources (only `tests/test_auto_state_handlers.py` is
present). -/

/-- The wildcard sentinel stored in a rule field, meaning "match any value". -/
def wildcard : String := "*"

/-- Modelled from the spec: a single matchable field of a stored rule matches a
query value iff the rule's value equals the query value or the rule's value is
the wildcard sentinel `"*"` (spec 4.2; `check_auto_endorse` in the missing
`api/services/auto_state_handlers.py`). -/
def field_matches (stored query : String) : Bool :=
  stored == query || stored == wildcard

/-- Modelled from the spec: a stored rule (its matchable fields, in the fixed
column order of its table) matches a criteria query iff every field
individually matches (conjunction across fields). -/
def rule_matches (rule query : List String) : Bool :=
  rule.length == query.length &&
    (rule.zip query).all (fun p => field_matches p.1 p.2)

/-- Modelled from the spec: `check_auto_endorse` answers whether at least one
stored rule of the given type matches the criteria query (disjunction across
the stored rules of that table). -/
def check_auto_endorse (rules : List (List String)) (query : List String) : Bool :=
  rules.any (fun r => rule_matches r query)

/-! ## Deterministic rule identity (name-based UUID, spec section 3)

The identity functions `allowed_schema_uuid`, `allowed_log_entry_uuid` and
`allowed_cred_def_uuid` live in `api/db/models/allow.py`, absent from the
provided sources; `tests/test_allow_models.py` pins their exact formulas:
`uuid5(NAMESPACE_OID, concatenation of the identity fields)`.  We embed a full
RFC 4122 version-5 UUID (SHA-1 based) over those formulas. -/

/-- Truncate to a 32-bit word. -/
def w32 (x : Nat) : Nat := x % 4294967296

/-- Rotate a 32-bit word left by `n` bits. -/
def rotl (n x : Nat) : Nat := w32 ((x <<< n) ||| ((w32 x) >>> (32 - n)))

/-- SHA-1 message schedule: expand a 64-byte block into 80 32-bit words. -/
def sha1W (block : List Nat) : List Nat :=
  let w0 := (List.range 16).map (fun i =>
    (block.getD (4 * i) 0 <<< 24) ||| (block.getD (4 * i + 1) 0 <<< 16) |||
      (block.getD (4 * i + 2) 0 <<< 8) ||| block.getD (4 * i + 3) 0)
  (List.range 64).foldl
    (fun w _ =>
      w ++ [rotl 1 ((w.getD (w.length - 3) 0) ^^^ (w.getD (w.length - 8) 0) ^^^
        (w.getD (w.length - 14) 0) ^^^ (w.getD (w.length - 16) 0))])
    w0

/-- SHA-1 round function. -/
def sha1F (t b c d : Nat) : Nat :=
  if t < 20 then ((b &&& c) ||| ((4294967295 - w32 b) &&& d))
  else if t < 40 then b ^^^ c ^^^ d
  else if t < 60 then ((b &&& c) ||| (b &&& d) ||| (c &&& d))
  else b ^^^ c ^^^ d

/-- SHA-1 round constants. -/
def sha1K (t : Nat) : Nat :=
  if t < 20 then 1518500249
  else if t < 40 then 1859775393
  else if t < 60 then 2400959708
  else 3395469782

/-- SHA-1 compression of one 64-byte block into the running state. -/
def sha1Block (h : Nat × Nat × Nat × Nat × Nat) (block : List Nat) :
    Nat × Nat × Nat × Nat × Nat :=
  let w := sha1W block
  let r := (List.range 80).foldl
    (fun s t =>
      let tmp := w32 (rotl 5 s.1 + sha1F t s.2.1 s.2.2.1 s.2.2.2.1 + s.2.2.2.2 +
        sha1K t + w.getD t 0)
      (tmp, s.1, rotl 30 s.2.1, s.2.2.1, s.2.2.2.1))
    h
  (w32 (h.1 + r.1), w32 (h.2.1 + r.2.1), w32 (h.2.2.1 + r.2.2.1),
    w32 (h.2.2.2.1 + r.2.2.2.1), w32 (h.2.2.2.2 + r.2.2.2.2))

/-- SHA-1 padding: append `0x80`, zeros, and the 64-bit big-endian bit length. -/
def sha1Pad (msg : List Nat) : List Nat :=
  let l := msg.length
  msg ++ [128] ++ List.replicate ((119 - l % 64) % 64) 0 ++
    (List.range 8).map (fun i => ((l * 8) >>> (8 * (7 - i))) % 256)

/-- SHA-1 digest of a byte list, as a list of 20 bytes. -/
def sha1 (msg : List Nat) : List Nat :=
  let padded := sha1Pad msg
  let h := (List.range (padded.length / 64)).foldl
    (fun h i => sha1Block h ((padded.drop (64 * i)).take 64))
    (1732584193, 4023233417, 2562383102, 271733878, 3285377520)
  ([h.1, h.2.1, h.2.2.1, h.2.2.2.1, h.2.2.2.2].map
    (fun x => [(x >>> 24) % 256, (x >>> 16) % 256, (x >>> 8) % 256, x % 256])).flatten

/-- UTF-8 encoding of a single character. -/
def utf8EncodeChar (c : Char) : List Nat :=
  let n := c.toNat
  if n < 128 then [n]
  else if n < 2048 then [192 + n / 64, 128 + n % 64]
  else if n < 65536 then [224 + n / 4096, 128 + (n / 64) % 64, 128 + n % 64]
  else [240 + n / 262144, 128 + (n / 4096) % 64, 128 + (n / 64) % 64, 128 + n % 64]

/-- UTF-8 encoding of a string as a byte list. -/
def utf8Bytes (s : String) : List Nat := (s.toList.map utf8EncodeChar).flatten

/-- The 16 bytes of `uuid.NAMESPACE_OID` (6ba7b812-9dad-11d1-80b4-00c04fd430c8). -/
def NAMESPACE_OID : List Nat :=
  [107, 167, 184, 18, 157, 173, 17, 209, 128, 180, 0, 192, 79, 212, 48, 200]

/-- RFC 4122 version-5 (name-based, SHA-1) UUID of a name under a namespace:
the first 16 bytes of `sha1(namespace ++ utf8(name))` with the version nibble
of byte 6 set to 5 and the variant bits of byte 8 set to `10`. -/
def uuid5 (ns : List Nat) (name : String) : List Nat :=
  ((sha1 (ns ++ utf8Bytes name)).take 16).mapIdx
    (fun i b => if i = 6 then 80 + b % 16 else if i = 8 then 128 + b % 64 else b)

/-! ## Rule rows (the four allow-list table variants) -/

/-- A row of the `allowed_publish_did` table; primary key `registered_did`. -/
structure AllowedPublicDid where
  registered_did : String
  details : Option String
deriving DecidableEq

/-- A row of the `allowed_schema` table. -/
structure AllowedSchema where
  author_did : String
  schema_name : String
  version : String
  details : Option String
deriving DecidableEq

/-- A row of the `allowed_credential_definition` table. -/
structure AllowedCredentialDefinition where
  schema_issuer_did : String
  creddef_author_did : String
  schema_name : String
  version : String
  tag : String
  rev_reg_def : Bool
  rev_reg_entry : Bool
  details : Option String
deriving DecidableEq

/-- A row of the `allowed_log_entry` table.  The source column `namespace` is a
Lean keyword and is rendered here as `name_space`. -/
structure AllowedLogEntry where
  scid : String
  domain : String
  name_space : String
  identifier : String
  version : String
  log_updates : Bool
deriving DecidableEq

/-- Modelled from the spec: the deterministic identity of a schema rule, a
name-based UUID over `author_did ++ schema_name ++ version` (the function
`allowed_schema_uuid` in the missing `api/db/models/allow.py`; the formula is
pinned exactly by `tests/test_allow_models.py`). -/
def allowed_schema_uuid (p : AllowedSchema) : List Nat :=
  uuid5 NAMESPACE_OID (p.author_did ++ p.schema_name ++ p.version)

/-- Modelled from the spec: the deterministic identity of a log-entry rule, a
name-based UUID over `domain ++ namespace ++ identifier` (the function
`allowed_log_entry_uuid` in the missing `api/db/models/allow.py`; pinned by
`tests/test_allow_models.py`). -/
def allowed_log_entry_uuid (p : AllowedLogEntry) : List Nat :=
  uuid5 NAMESPACE_OID (p.domain ++ p.name_space ++ p.identifier)

/-- Modelled from the spec: the deterministic identity of a
credential-definition rule, a name-based UUID over the concatenation of
`schema_issuer_did`, `creddef_author_did`, `schema_name`, `version` and `tag`
(the function `allowed_cred_def_uuid` in the missing `api/db/models/allow.py`;
pinned by `tests/test_allow_models.py`). -/
def allowed_cred_def_uuid (p : AllowedCredentialDefinition) : List Nat :=
  uuid5 NAMESPACE_OID (p.schema_issuer_did ++ p.creddef_author_did ++
    p.schema_name ++ p.version ++ p.tag)

/-! ## Bulk ingestion (`update_allowed_config` / `update_full_config` /
`set_config` / `append_config` in `routes/allow.py`, and the four-table variant
in `routes/admin.py`)

The transactional session is modelled as a committed snapshot plus the current
in-transaction view; `db.add` stages rows into the view, `db.execute(delete(v))`
clears the view's table, and `db.commit` publishes the view, failing with an
`IntegrityError` when a uniqueness (primary-key) violation exists.  An uploaded
CSV file is `Option (Except String (List row))`: `none` when the form field is
absent, `.error` when reading rows raises, `.ok rows` otherwise.  Side effects
are recorded in an event trace. -/

/-- Database-level errors surfaced to the route handlers. -/
inductive DbErr
  | integrity
  | already_exists
  | other (msg : String)
deriving DecidableEq

/-- `db_to_http_exception` of `routes/allow.py`: `IntegrityError` and
`AlreadyExists` map to 409, anything else to 500. -/
def db_to_http_exception : DbErr → Nat
  | .integrity => 409
  | .already_exists => 409
  | .other _ => 500

/-- `db_to_http_exception` of `routes/admin.py`: every error maps to 500. -/
def admin_db_to_http_exception : DbErr → Nat
  | _ => 500

/-- The four allow-list tables. -/
structure Tables where
  dids : List AllowedPublicDid
  schemas : List AllowedSchema
  creddefs : List AllowedCredentialDefinition
  log_entries : List AllowedLogEntry
deriving DecidableEq

/-- Names of the allow-list tables, for the event trace. -/
inductive TableName
  | log_entry
  | publish_did
  | schema
  | creddef
deriving DecidableEq

/-- Observable store events of a bulk-ingestion call. -/
inductive Ev
  | deleteTable (t : TableName)
  | addRow (t : TableName)
  | commit
  | reconcile
  | rollback
deriving DecidableEq

/-- A transactional session: durable snapshot, in-transaction view, event
trace. -/
structure Sess where
  committed : Tables
  current : Tables
  events : List Ev
deriving DecidableEq

/-- `true` when no two rows of the list share a primary key. -/
def nodupBy {ρ κ : Type} [DecidableEq κ] (key : ρ → κ) : List ρ → Bool
  | [] => true
  | r :: rs => !(rs.any (fun x => key x == key r)) && nodupBy key rs

/-- All four tables satisfy their primary-key uniqueness constraints. -/
def tablesOk (t : Tables) : Bool :=
  nodupBy (fun r => r.registered_did) t.dids &&
    nodupBy allowed_schema_uuid t.schemas &&
    nodupBy allowed_cred_def_uuid t.creddefs &&
    nodupBy allowed_log_entry_uuid t.log_entries

/-- `db.commit()`: publish the current view, or fail with `IntegrityError` on a
uniqueness violation (duplicate insertion). -/
def commitSess (s : Sess) : Except (DbErr × Sess) Sess :=
  if tablesOk s.current then
    .ok { s with committed := s.current, events := s.events ++ [Ev.commit] }
  else
    .error (.integrity, s)

/-- Record the `updated_allowed(db)` reconciliation invocation made by
`update_full_config` after its commit (the pass itself is modelled separately
by `updated_allowed` below). -/
def updated_allowed_ev (s : Sess) : Sess :=
  { s with events := s.events ++ [Ev.reconcile] }

/-- `db.execute(delete(AllowedPublicDid))`. -/
def clear_dids (s : Sess) : Sess :=
  { s with current := { s.current with dids := [] },
           events := s.events ++ [Ev.deleteTable .publish_did] }

/-- `db.execute(delete(AllowedSchema))`. -/
def clear_schemas (s : Sess) : Sess :=
  { s with current := { s.current with schemas := [] },
           events := s.events ++ [Ev.deleteTable .schema] }

/-- `db.execute(delete(AllowedCredentialDefinition))`. -/
def clear_creddefs (s : Sess) : Sess :=
  { s with current := { s.current with creddefs := [] },
           events := s.events ++ [Ev.deleteTable .creddef] }

/-- `db.execute(delete(AllowedLogEntry))` (admin router only). -/
def clear_log_entries (s : Sess) : Sess :=
  { s with current := { s.current with log_entries := [] },
           events := s.events ++ [Ev.deleteTable .log_entry] }

/-- The `db.add` loop of `update_allowed_config` for the DID table. -/
def add_dids (rows : List AllowedPublicDid) (s : Sess) : Sess :=
  { s with current := { s.current with dids := s.current.dids ++ rows },
           events := s.events ++ rows.map (fun _ => Ev.addRow .publish_did) }

/-- The `db.add` loop of `update_allowed_config` for the schema table. -/
def add_schemas (rows : List AllowedSchema) (s : Sess) : Sess :=
  { s with current := { s.current with schemas := s.current.schemas ++ rows },
           events := s.events ++ rows.map (fun _ => Ev.addRow .schema) }

/-- The `db.add` loop of `update_allowed_config` for the creddef table. -/
def add_creddefs (rows : List AllowedCredentialDefinition) (s : Sess) : Sess :=
  { s with current := { s.current with creddefs := s.current.creddefs ++ rows },
           events := s.events ++ rows.map (fun _ => Ev.addRow .creddef) }

/-- The `db.add` loop of `update_allowed_config` for the log-entry table. -/
def add_log_entries (rows : List AllowedLogEntry) (s : Sess) : Sess :=
  { s with current := { s.current with log_entries := s.current.log_entries ++ rows },
           events := s.events ++ rows.map (fun _ => Ev.addRow .log_entry) }

/-- One iteration of the `for k, v in correlated_tables.items()` loop of
`update_full_config`: skip an absent file; otherwise clear the table first when
`delete_contents` is set, then parse the CSV (`update_allowed_config`), a
failure propagating, and stage every parsed row with `db.add`.  Returns the
session and whether the table was recorded in the modifications map. -/
def processTable {ρ : Type} (file : Option (Except String (List ρ)))
    (clear : Sess → Sess) (stage : List ρ → Sess → Sess)
    (delete_contents : Bool) (s : Sess) : Except (DbErr × Sess) (Sess × Bool) :=
  match file with
  | none => .ok (s, false)
  | some f =>
    let s1 := if delete_contents then clear s else s
    match f with
    | .error m => .error (.other m, s1)
    | .ok rows => .ok (stage rows s1, true)

/-- `update_full_config` of `routes/allow.py`: process the three uploaded files
in the fixed dictionary order `publish_did`, `schema`, `credential_definition`;
then `db.commit()`; then `updated_allowed(db)`.  There is no zero-file check
and no exception handler in the source: errors propagate, everything staged is
simply never committed, and no `db.rollback()` call exists. -/
def update_full_config
    (publish_did : Option (Except String (List AllowedPublicDid)))
    (schema : Option (Except String (List AllowedSchema)))
    (credential_definition : Option (Except String (List AllowedCredentialDefinition)))
    (s : Sess) (delete_contents : Bool) :
    Except (DbErr × Sess) (Sess × List String) :=
  match processTable publish_did clear_dids add_dids delete_contents s with
  | .error e => .error e
  | .ok (s1, m1) =>
    match processTable schema clear_schemas add_schemas delete_contents s1 with
    | .error e => .error e
    | .ok (s2, m2) =>
      match processTable credential_definition clear_creddefs add_creddefs
          delete_contents s2 with
      | .error e => .error e
      | .ok (s3, m3) =>
        match commitSess s3 with
        | .error e => .error e
        | .ok s4 =>
          .ok (updated_allowed_ev s4,
            (if m1 then ["AllowedPublicDid"] else []) ++
              (if m2 then ["AllowedSchema"] else []) ++
              (if m3 then ["AllowedCredentialDefinition"] else []))

/-- `update_full_config` of `routes/admin.py`: identical, with the log-entry
table first. -/
def admin_update_full_config
    (log_entry : Option (Except String (List AllowedLogEntry)))
    (publish_did : Option (Except String (List AllowedPublicDid)))
    (schema : Option (Except String (List AllowedSchema)))
    (credential_definition : Option (Except String (List AllowedCredentialDefinition)))
    (s : Sess) (delete_contents : Bool) :
    Except (DbErr × Sess) (Sess × List String) :=
  match processTable log_entry clear_log_entries add_log_entries
      delete_contents s with
  | .error e => .error e
  | .ok (s0, m0) =>
    match processTable publish_did clear_dids add_dids delete_contents s0 with
    | .error e => .error e
    | .ok (s1, m1) =>
      match processTable schema clear_schemas add_schemas delete_contents s1 with
      | .error e => .error e
      | .ok (s2, m2) =>
        match processTable credential_definition clear_creddefs add_creddefs
            delete_contents s2 with
        | .error e => .error e
        | .ok (s3, m3) =>
          match commitSess s3 with
          | .error e => .error e
          | .ok s4 =>
            .ok (updated_allowed_ev s4,
              (if m0 then ["AllowedLogEntry"] else []) ++
                (if m1 then ["AllowedPublicDid"] else []) ++
                (if m2 then ["AllowedSchema"] else []) ++
                (if m3 then ["AllowedCredentialDefinition"] else []))

/-- `POST /allow/config` (`set_config`): replace mode; exceptions become HTTP
status codes via `db_to_http_exception`. -/
def set_config
    (publish_did : Option (Except String (List AllowedPublicDid)))
    (schema : Option (Except String (List AllowedSchema)))
    (credential_definition : Option (Except String (List AllowedCredentialDefinition)))
    (s : Sess) : Except (Nat × Sess) (Sess × List String) :=
  match update_full_config publish_did schema credential_definition s true with
  | .ok r => .ok r
  | .error (e, s1) => .error (db_to_http_exception e, s1)

/-- `PUT /allow/config` (`append_config`): append mode; exceptions become HTTP
status codes via `db_to_http_exception`. -/
def append_config
    (publish_did : Option (Except String (List AllowedPublicDid)))
    (schema : Option (Except String (List AllowedSchema)))
    (credential_definition : Option (Except String (List AllowedCredentialDefinition)))
    (s : Sess) : Except (Nat × Sess) (Sess × List String) :=
  match update_full_config publish_did schema credential_definition s false with
  | .ok r => .ok r
  | .error (e, s1) => .error (db_to_http_exception e, s1)

/-! ## CSV boolean normalization (`maybe_str_to_bool` and
`construct_allowed_credential_definition` in `routes/allow.py`) -/

/-- A Python value of static type `str | bool`. -/
inductive StrOrBool
  | str (v : String)
  | bool (v : Bool)
deriving DecidableEq

/-- `maybe_str_to_bool`: `s == "True" if isinstance(s, str) else s` — a string
maps to the boolean comparison with the literal `"True"`, a boolean passes
through. -/
def maybe_str_to_bool : StrOrBool → StrOrBool
  | .str v => .bool (v == "True")
  | .bool b => .bool b

/-- A CSV record for the credential-definition table: every field arrives as
free-form text, the two flag columns as `str | bool` values. -/
structure CredDefCsvRow where
  schema_issuer_did : String
  creddef_author_did : String
  schema_name : String
  version : String
  tag : String
  rev_reg_def : StrOrBool
  rev_reg_entry : StrOrBool
  details : Option String
deriving DecidableEq

/-- `construct_allowed_credential_definition`: rewrite the two flag fields with
`maybe_str_to_bool`, then build the model row.  Assigning a non-boolean to a
boolean column would fail model validation, rendered here as `none`. -/
def construct_allowed_credential_definition (cd : CredDefCsvRow) :
    Option AllowedCredentialDefinition :=
  match maybe_str_to_bool cd.rev_reg_def, maybe_str_to_bool cd.rev_reg_entry with
  | .bool d, .bool e =>
    some { schema_issuer_did := cd.schema_issuer_did,
           creddef_author_did := cd.creddef_author_did,
           schema_name := cd.schema_name, version := cd.version, tag := cd.tag,
           rev_reg_def := d, rev_reg_entry := e, details := cd.details }
  | _, _ => none

/-! ## List filtering and pagination (`select_from_table` in
`routes/allow.py`) -/

/-- A filter value as supplied to a list endpoint: a string, a boolean, or a
rule UUID. -/
inductive FVal
  | s (v : String)
  | b (v : Bool)
  | u (v : List Nat)
deriving DecidableEq

/-- Python truthiness of a supplied filter value: the empty string and `False`
are falsy; UUID objects are always truthy. -/
def fval_truthy : FVal → Bool
  | .s v => !(v == "")
  | .b v => v
  | .u _ => true

/-- One member of the `filter_conditions` comprehension:
`cond == value if value else True`. -/
def cond_holds {α : Type} (f : Option FVal × (α → FVal)) (r : α) : Bool :=
  match f.1 with
  | none => true
  | some v => if fval_truthy v then f.2 r == v else true

/-- `select_from_table`: apply every filter condition, count the matches, and
return the page of size `page_size` at offset `(page_num - 1) * page_size`. -/
def select_from_table {α : Type} (rows : List α)
    (filters : List (Option FVal × (α → FVal))) (page_num page_size : Nat) :
    Nat × List α :=
  let skip := (page_num - 1) * page_size
  let matched := rows.filter (fun r => filters.all (fun f => cond_holds f r))
  (matched.length, (matched.drop skip).take page_size)

/-! ## Reconciliation pass (`updated_allowed` in the missing
`api/services/allow_lists.py`) -/

/-- Lifecycle states of a pending endorsement transaction. -/
inductive TxnState
  | request_received
  | endorsed
  | rejected
  | transaction_error
deriving DecidableEq

/-- Rule types the classifier can produce criteria for. -/
inductive RuleType
  | did
  | schema
  | creddef
deriving DecidableEq

/-- A pending transaction together with the outcome of classification
(`is_endorsable_transaction`'s criteria extraction, spec 4.3): `none` when the
transaction is not endorsable (unknown type, missing fields, failed schema
lookup), otherwise the rule type and criteria tuple to match. -/
structure Txn where
  transaction_id : String
  state : TxnState
  criteria : Option (RuleType × List String)
deriving DecidableEq

/-- Modelled from the spec: `is_endorsable_transaction` (spec 4.3, missing
`api/services/auto_state_handlers.py`) resolves to the matcher verdict on the
classified criteria, and to false for non-endorsable transactions; the
kind-specific extraction itself is abstracted into the precomputed `criteria`
field of `Txn`. -/
def is_endorsable_transaction (rules : RuleType → List (List String)) (t : Txn) :
    Bool :=
  match t.criteria with
  | none => false
  | some (rt, q) => check_auto_endorse (rules rt) q

/-- State touched by a reconciliation pass: the pending transactions, the log
of `endorse_transaction` invocations, and the commit count. -/
structure PendState where
  txns : List Txn
  endorse_log : List String
  commits : Nat
deriving DecidableEq

/-- A loaded transaction qualifies for endorsement when it is still awaiting a
decision and its classified criteria match a stored rule. -/
def qualifies (rules : RuleType → List (List String)) (t : Txn) : Bool :=
  t.state == TxnState.request_received && is_endorsable_transaction rules t

/-- One iteration of the reconciliation loop: a loaded transaction in
`request_received` state whose criteria match is endorsed (invocation logged)
and advanced to `endorsed`; every other transaction is kept unchanged. -/
def endorse_step (rules : RuleType → List (List String)) (acc : PendState)
    (t : Txn) : PendState :=
  if qualifies rules t then
    { txns := acc.txns ++ [{ t with state := TxnState.endorsed }],
      endorse_log := acc.endorse_log ++ [t.transaction_id],
      commits := acc.commits }
  else
    { acc with txns := acc.txns ++ [t] }

/-- Modelled from the spec: `updated_allowed` (spec 4.4, missing
`api/services/allow_lists.py`; behavior pinned by `tests/test_allow_lists.py`).
Load the pending transactions — when the read raises (`read_fails`), log and
swallow the error, leaving everything untouched and committing nothing — then
run the classifier/matcher on each, endorse and advance the qualifying ones,
and commit exactly once at the end.  The function is total: no error ever
propagates to the triggering mutation's caller. -/
def updated_allowed (rules : RuleType → List (List String)) (read_fails : Bool)
    (s : PendState) : PendState :=
  if read_fails then s
  else
    let s1 := s.txns.foldl (endorse_step rules)
      { txns := [], endorse_log := s.endorse_log, commits := s.commits }
    { s1 with commits := s1.commits + 1 }

/-! ## List/delete endpoints of `routes/allow.py` over the combined state -/

/-- Combined application state: the allow-list tables plus the pending
transactions touched by reconciliation. -/
structure AppState where
  tables : Tables
  pend : PendState
deriving DecidableEq

/-- Modelled from the spec: the stored rules of each type as the matcher sees
them, projected to the matchable criteria columns in the fixed criteria order
of `tests/test_auto_state_handlers.py` (the flag and detail columns are not
matched). -/
def rulesOf (t : Tables) : RuleType → List (List String)
  | .did => t.dids.map (fun r => [r.registered_did])
  | .schema => t.schemas.map (fun r => [r.author_did, r.schema_name, r.version])
  | .creddef => t.creddefs.map (fun r =>
      [r.creddef_author_did, r.schema_issuer_did, r.schema_name, r.version, r.tag])

/-- The list-endpoint response shape (`page_size`, `page_num`, `total_count`,
`count`, rows). -/
structure PagedResult (α : Type) where
  page_size : Nat
  page_num : Nat
  total_count : Nat
  count : Nat
  rows : List α
deriving DecidableEq

/-- `GET /allow/publish-did` (`get_allowed_dids`): a pure read — filter and
paginate the DID table; the state is returned untouched. -/
def get_allowed_dids (did : Option String) (page_size page_num : Nat)
    (s : AppState) : PagedResult AllowedPublicDid × AppState :=
  let r := select_from_table s.tables.dids
    [(did.map FVal.s, fun row => FVal.s row.registered_did)] page_num page_size
  ({ page_size := page_size, page_num := page_num, total_count := r.1,
     count := r.2.length, rows := r.2 }, s)

/-- `GET /allow/schema` (`get_allowed_schemas`): a pure read — filter and
paginate the schema table; the state is returned untouched. -/
def get_allowed_schemas (allowed_schema_id : Option (List Nat))
    (author_did schema_name version : Option String) (page_size page_num : Nat)
    (s : AppState) : PagedResult AllowedSchema × AppState :=
  let r := select_from_table s.tables.schemas
    [(allowed_schema_id.map FVal.u, fun row => FVal.u (allowed_schema_uuid row)),
     (author_did.map FVal.s, fun row => FVal.s row.author_did),
     (schema_name.map FVal.s, fun row => FVal.s row.schema_name),
     (version.map FVal.s, fun row => FVal.s row.version)] page_num page_size
  ({ page_size := page_size, page_num := page_num, total_count := r.1,
     count := r.2.length, rows := r.2 }, s)

/-- `GET /allow/credential-definition` (`get_allowed_cred_def`): filter and
paginate the creddef table, then — unlike the other two list endpoints — call
`updated_allowed(db)`, so the returned state carries a full reconciliation
pass. -/
def get_allowed_cred_def (allowed_cred_def_id : Option (List Nat))
    (schema_issuer_did creddef_author_did schema_name version tag : Option String)
    (rev_reg_def rev_reg_entry : Option Bool) (page_size page_num : Nat)
    (read_fails : Bool) (s : AppState) :
    PagedResult AllowedCredentialDefinition × AppState :=
  let r := select_from_table s.tables.creddefs
    [(allowed_cred_def_id.map FVal.u, fun row => FVal.u (allowed_cred_def_uuid row)),
     (schema_issuer_did.map FVal.s, fun row => FVal.s row.schema_issuer_did),
     (creddef_author_did.map FVal.s, fun row => FVal.s row.creddef_author_did),
     (schema_name.map FVal.s, fun row => FVal.s row.schema_name),
     (version.map FVal.s, fun row => FVal.s row.version),
     (tag.map FVal.s, fun row => FVal.s row.tag),
     (rev_reg_def.map FVal.b, fun row => FVal.b row.rev_reg_def),
     (rev_reg_entry.map FVal.b, fun row => FVal.b row.rev_reg_entry)]
    page_num page_size
  ({ page_size := page_size, page_num := page_num, total_count := r.1,
     count := r.2.length, rows := r.2 },
   { s with pend := updated_allowed (rulesOf s.tables) read_fails s.pend })

/-- `DELETE /allow/publish-did/{did}` (`delete_allowed_did`): delete the
matching rows, run `updated_allowed(db)`, and return `{}` (an `Except` value so
the caller-visible success/failure is explicit; the reconciliation pass never
raises, so the endpoint always succeeds). -/
def delete_allowed_did (did : String) (read_fails : Bool) (s : AppState) :
    Except Nat AppState :=
  let s1 := { s with tables := { s.tables with
    dids := s.tables.dids.filter (fun r => !(r.registered_did == did)) } }
  .ok { s1 with pend := updated_allowed (rulesOf s1.tables) read_fails s1.pend }

/-! ## Concrete fixtures used by the theorems -/

/-- A pending DID-registration transaction awaiting a decision, classified to
the identifier criteria `"did:example:123"`. -/
def sampleTxn : Txn :=
  { transaction_id := "txn-1", state := TxnState.request_received,
    criteria := some (RuleType.did, ["did:example:123"]) }

/-- An application state holding one wildcard DID rule and one pending
transaction. -/
def sampleState : AppState :=
  { tables := { dids := [{ registered_did := "*", details := none }],
                schemas := [], creddefs := [], log_entries := [] },
    pend := { txns := [sampleTxn], endorse_log := [], commits := 0 } }

/-- A rule already stored in the DID table. -/
def dupDid : AllowedPublicDid := { registered_did := "did:example:123", details := none }

/-- A session whose committed (and current) store holds exactly `dupDid`. -/
def dupSess : Sess :=
  { committed := { dids := [dupDid], schemas := [], creddefs := [], log_entries := [] },
    current := { dids := [dupDid], schemas := [], creddefs := [], log_entries := [] },
    events := [] }

/-- The empty allow-list store. -/
def emptyTables : Tables :=
  { dids := [], schemas := [], creddefs := [], log_entries := [] }

/-- A fresh session over the empty store. -/
def emptySess : Sess :=
  { committed := emptyTables, current := emptyTables, events := [] }

/-- `s1` extends `s` by staging work only: the durable store is untouched and
the added events contain no commit, no reconciliation and no rollback. -/
def extends_sans_finalize (s s1 : Sess) : Prop :=
  s1.committed = s.committed ∧
  ∃ e, s1.events = s.events ++ e ∧ e.count Ev.commit = 0 ∧
    e.count Ev.reconcile = 0 ∧ e.count Ev.rollback = 0

/-- The session produced by a successful one-file replace over the empty
store. -/
def replacedSess : Sess :=
  { committed := { dids := [dupDid], schemas := [], creddefs := [], log_entries := [] },
    current := { dids := [dupDid], schemas := [], creddefs := [], log_entries := [] },
    events := [Ev.deleteTable .publish_did, Ev.addRow .publish_did,
      Ev.commit, Ev.reconcile] }

/-! ## Theorems -/

/-- Sanity anchor for the UUID embedding: the three identity functions agree
with CPython's `uuid.uuid5(uuid.NAMESPACE_OID, ...)` on the exact inputs used
by `tests/test_allow_models.py`. -/
theorem uuid_embedding_test_vectors :
    allowed_schema_uuid
      { author_did := "did:example:author", schema_name := "degree",
        version := "1.0", details := none } =
      [50, 117, 179, 226, 140, 239, 90, 70, 154, 147, 134, 104, 139, 51, 86, 4] ∧
    allowed_log_entry_uuid
      { scid := "s", domain := "example.com", name_space := "ns",
        identifier := "id-1", version := "1", log_updates := false } =
      [29, 10, 60, 186, 200, 66, 84, 146, 184, 64, 179, 125, 159, 143, 245, 54] ∧
    allowed_cred_def_uuid
      { schema_issuer_did := "did:issuer", creddef_author_did := "did:author",
        schema_name := "degree", version := "1.0", tag := "tag1",
        rev_reg_def := true, rev_reg_entry := true, details := none } =
      [252, 9, 34, 53, 33, 141, 80, 171, 138, 32, 1, 212, 30, 119, 81, 109] := by
  refine ⟨?_, ?_, ?_⟩ <;> rfl

/-- A rule matches a query iff the two field lists are pointwise related by
"equal or stored wildcard". -/
theorem rule_matches_iff (r q : List String) :
    rule_matches r q = true ↔
      List.Forall₂ (fun stored v => stored = v ∨ stored = wildcard) r q := by
  induction r generalizing q with
  | nil =>
    cases q <;> simp [rule_matches]
  | cons a r ih =>
    cases q with
    | nil => simp [rule_matches]
    | cons b q =>
      have hcons : rule_matches (a :: r) (b :: q) =
          (field_matches a b && rule_matches r q) := by
        simp only [rule_matches, List.zip_cons_cons, List.all_cons,
          List.length_cons]
        cases hf : field_matches a b <;>
          cases hl : r.length == q.length <;>
          simp [hf, hl, Nat.succ_inj]
      rw [hcons]
      simp only [Bool.and_eq_true, ih, List.forall₂_cons, field_matches,
        Bool.or_eq_true, beq_iff_eq]

/-- C1: for every rule type and criteria query, the matcher returns true iff at
least one stored rule of that type matches the query, a rule matching iff every
matchable field of it equals the query value or is the wildcard sentinel `"*"`;
a stored `"*"` matches any concrete query string, and a stored concrete value
matches exactly the identical query value. -/
theorem C1_matcher_wildcard_semantics :
    (∀ (rules : List (List String)) (query : List String),
      check_auto_endorse rules query = true ↔
        ∃ r ∈ rules,
          List.Forall₂ (fun stored v => stored = v ∨ stored = wildcard) r query) ∧
    (∀ q : String, field_matches wildcard q = true) ∧
    (∀ stored q : String, stored ≠ wildcard →
      (field_matches stored q = true ↔ stored = q)) := by
  refine ⟨fun rules query => ?_, fun q => ?_, fun stored q h => ?_⟩
  · simp only [check_auto_endorse, List.any_eq_true, rule_matches_iff]
  · simp [field_matches]
  · simp [field_matches, h]

/-- Witness for C1: the concrete-value leg applied at `"did:x"`. -/
theorem C1_matcher_wildcard_semantics_witness :
    field_matches "did:x" "did:x" = true ↔ ("did:x" : String) = "did:x" :=
  C1_matcher_wildcard_semantics.2.2 "did:x" "did:x" (by decide)

/-- The reconciliation loop, unrolled: it maps qualifying transactions to the
endorsed state, logs one endorsement invocation per qualifying transaction, and
leaves the commit counter to the caller. -/
theorem endorse_foldl (rules : RuleType → List (List String)) (ts : List Txn)
    (acc : PendState) :
    ts.foldl (endorse_step rules) acc =
      { txns := acc.txns ++ ts.map (fun t =>
          if qualifies rules t then { t with state := TxnState.endorsed } else t),
        endorse_log := acc.endorse_log ++
          (ts.filter (qualifies rules)).map (fun t => t.transaction_id),
        commits := acc.commits } := by
  induction ts generalizing acc with
  | nil => simp
  | cons t ts ih =>
    rw [List.foldl_cons, ih]
    cases h : qualifies rules t
    · simp [endorse_step, h, List.filter_cons, List.append_assoc]
    · simp [endorse_step, h, List.filter_cons, List.append_assoc]

/-- C5: when the initial read succeeds, a reconciliation pass endorses exactly
the loaded `request_received` transactions whose classified criteria match at
least one stored rule — invoking the endorsement operation exactly once per
such transaction and advancing its state to `endorsed` — leaves every other
transaction unchanged, and commits exactly once no matter how many
transactions qualified, including zero. -/
theorem C5_reconciliation_pass (rules : RuleType → List (List String))
    (s : PendState) :
    updated_allowed rules false s =
      { txns := s.txns.map (fun t =>
          if qualifies rules t then { t with state := TxnState.endorsed } else t),
        endorse_log := s.endorse_log ++
          (s.txns.filter (qualifies rules)).map (fun t => t.transaction_id),
        commits := s.commits + 1 } := by
  simp [updated_allowed, endorse_foldl]

/-- C6: when the initial read of pending transactions raises, the pass aborts
silently — nothing is endorsed, no state changes, no commit happens — and the
triggering mutation (here `DELETE /allow/publish-did/{did}`) still succeeds
from the caller's point of view. -/
theorem C6_read_failure_swallowed :
    (∀ (rules : RuleType → List (List String)) (s : PendState),
      updated_allowed rules true s = s) ∧
    (∀ (did : String) (s : AppState),
      delete_allowed_did did true s =
        .ok { s with tables := { s.tables with
          dids := s.tables.dids.filter (fun r => !(r.registered_did == did)) } }) :=
  ⟨fun _ _ => rfl, fun _ _ => rfl⟩

/-- C10: the credential-definition list endpoint runs a reconciliation pass
after its read — so a GET there can endorse pending transactions and commit —
while the DID and schema list endpoints return the state untouched.  The last
conjunct exhibits the side effect: on `sampleState` the GET advances the
pending transaction to `endorsed`, logs one endorsement, and commits once. -/
theorem C10_cred_def_get_reconciles :
    (∀ (did : Option String) (ps pn : Nat) (s : AppState),
      (get_allowed_dids did ps pn s).2 = s) ∧
    (∀ (i : Option (List Nat)) (a n v : Option String) (ps pn : Nat)
      (s : AppState), (get_allowed_schemas i a n v ps pn s).2 = s) ∧
    (∀ (i : Option (List Nat)) (sid cad n v tg : Option String)
      (rd re : Option Bool) (ps pn : Nat) (rf : Bool) (s : AppState),
      (get_allowed_cred_def i sid cad n v tg rd re ps pn rf s).2 =
        { s with pend := updated_allowed (rulesOf s.tables) rf s.pend }) ∧
    (get_allowed_cred_def none none none none none none none none 10 1 false
        sampleState).2 =
      { sampleState with pend :=
        { txns := [{ sampleTxn with state := TxnState.endorsed }],
          endorse_log := ["txn-1"], commits := 1 } } := by
  refine ⟨fun _ _ _ _ => rfl, fun _ _ _ _ _ _ _ => rfl,
    fun _ _ _ _ _ _ _ _ _ _ _ _ => rfl, ?_⟩
  decide

/-- Filtering by a conjunction is filtering twice. -/
theorem filter_and {α : Type} (p q : α → Bool) (l : List α) :
    l.filter (fun a => p a && q a) = (l.filter p).filter q := by
  induction l with
  | nil => rfl
  | cons a l ih => cases hp : p a <;> cases hq : q a <;>
      simp [List.filter_cons, hp, hq, ih]

/-- C7 counterexample: the claim says a supplied filter value of `"*"` imposes
no constraint, but `select_from_table` treats `"*"` as an ordinary truthy value
— on a table holding one row `"a"`, filtering by `"*"` returns zero rows while
the absent filter returns the row. -/
theorem C7_counterexample_star_filters :
    (select_from_table ["a"] [(some (FVal.s "*"), fun v => FVal.s v)] 1 10).1 = 0 ∧
    (select_from_table ["a"] [(none, fun v => FVal.s v)] 1 10).1 = 1 := by
  constructor <;> rfl

/-- C7 amended: an absent filter value (and likewise a falsy one — the empty
string or `False`) imposes no constraint on its field, while any truthy
supplied value — including the sentinel `"*"` itself — restricts the listing
to rows whose field equals that value; the returned page is the slice of the
filtered rows at offset `(page_num - 1) * page_size` of length `page_size`. -/
theorem C7_amended_listing_semantics :
    fval_truthy (FVal.s "*") = true ∧
    (∀ (α : Type) (rows : List α) (f : α → FVal)
      (fs : List (Option FVal × (α → FVal))) (p n : Nat),
      select_from_table rows ((none, f) :: fs) p n =
        select_from_table rows fs p n) ∧
    (∀ (α : Type) (rows : List α) (v : FVal) (f : α → FVal)
      (fs : List (Option FVal × (α → FVal))) (p n : Nat),
      select_from_table rows ((some v, f) :: fs) p n =
        if fval_truthy v then
          select_from_table (rows.filter (fun r => f r == v)) fs p n
        else
          select_from_table rows fs p n) ∧
    (∀ (α : Type) (rows : List α) (filters : List (Option FVal × (α → FVal)))
      (p n : Nat),
      (select_from_table rows filters p n).2 =
        ((rows.filter (fun r => filters.all (fun f => cond_holds f r))).drop
          ((p - 1) * n)).take n) := by
  refine ⟨rfl, fun α rows f fs p n => ?_, fun α rows v f fs p n => ?_,
    fun α rows filters p n => rfl⟩
  · simp [select_from_table, cond_holds]
  · cases hv : fval_truthy v
    · have hc : ∀ r : α, cond_holds (some v, f) r = true := fun r => by
        simp [cond_holds, hv]
      simp [select_from_table, hc]
    · have hc : ∀ r : α, cond_holds (some v, f) r = (f r == v) := fun r => by
        simp [cond_holds, hv]
      simp [select_from_table, hc,
        filter_and (fun r => f r == v) (fun r => fs.all (fun g => cond_holds g r))]

/-- C8: boolean-valued CSV fields are normalized by a strict two-branch rule —
exactly the literal string `"True"` yields `true` and every other string
yields `false` — and a bulk credential-definition record with
`rev_reg_def = "True"`, `rev_reg_entry = "anything"` builds a rule with flags
`(true, false)`. -/
theorem C8_strict_bool_normalization :
    (∀ v : String, maybe_str_to_bool (.str v) = .bool (v == "True")) ∧
    (∀ v : String, maybe_str_to_bool (.str v) = .bool true ↔ v = "True") ∧
    maybe_str_to_bool (.str "False") = .bool false ∧
    maybe_str_to_bool (.str "anything") = .bool false ∧
    (∀ cd : CredDefCsvRow,
      construct_allowed_credential_definition
        { cd with rev_reg_def := .str "True", rev_reg_entry := .str "anything" } =
        some { schema_issuer_did := cd.schema_issuer_did,
               creddef_author_did := cd.creddef_author_did,
               schema_name := cd.schema_name, version := cd.version,
               tag := cd.tag, rev_reg_def := true, rev_reg_entry := false,
               details := cd.details }) := by
  refine ⟨fun v => rfl, fun v => ?_, rfl, rfl, fun cd => rfl⟩
  simp [maybe_str_to_bool]

/-- C9: each rule variant's primary identity is the deterministic name-based
UUID of its identity fields — detail text and the boolean flags (and, for the
log-entry variant, `scid` and `version`) do not enter it — so re-submitting a
rule with the same field values always yields the same identity. -/
theorem C9_deterministic_identity :
    (∀ p q : AllowedSchema, p.author_did = q.author_did →
      p.schema_name = q.schema_name → p.version = q.version →
      allowed_schema_uuid p = allowed_schema_uuid q) ∧
    (∀ p q : AllowedLogEntry, p.domain = q.domain →
      p.name_space = q.name_space → p.identifier = q.identifier →
      allowed_log_entry_uuid p = allowed_log_entry_uuid q) ∧
    (∀ p q : AllowedCredentialDefinition,
      p.schema_issuer_did = q.schema_issuer_did →
      p.creddef_author_did = q.creddef_author_did →
      p.schema_name = q.schema_name → p.version = q.version → p.tag = q.tag →
      allowed_cred_def_uuid p = allowed_cred_def_uuid q) := by
  refine ⟨fun p q h1 h2 h3 => ?_, fun p q h1 h2 h3 => ?_,
    fun p q h1 h2 h3 h4 h5 => ?_⟩
  · simp [allowed_schema_uuid, h1, h2, h3]
  · simp [allowed_log_entry_uuid, h1, h2, h3]
  · simp [allowed_cred_def_uuid, h1, h2, h3, h4, h5]

/-- Witness for C9: concrete resubmissions differing only in detail text, in
flags, and (for the log-entry variant) in `scid` and `version`, all map to the
same identity. -/
theorem C9_deterministic_identity_witness :
    allowed_schema_uuid
      { author_did := "did:x", schema_name := "degree", version := "1.0",
        details := none } =
    allowed_schema_uuid
      { author_did := "did:x", schema_name := "degree", version := "1.0",
        details := some "re-submitted" } ∧
    allowed_log_entry_uuid
      { scid := "scid-1", domain := "example.com", name_space := "ns",
        identifier := "id-1", version := "1", log_updates := false } =
    allowed_log_entry_uuid
      { scid := "scid-2", domain := "example.com", name_space := "ns",
        identifier := "id-1", version := "2", log_updates := true } ∧
    allowed_cred_def_uuid
      { schema_issuer_did := "did:i", creddef_author_did := "did:a",
        schema_name := "degree", version := "1.0", tag := "t",
        rev_reg_def := true, rev_reg_entry := true, details := none } =
    allowed_cred_def_uuid
      { schema_issuer_did := "did:i", creddef_author_did := "did:a",
        schema_name := "degree", version := "1.0", tag := "t",
        rev_reg_def := false, rev_reg_entry := false, details := some "d" } :=
  ⟨C9_deterministic_identity.1 _ _ rfl rfl rfl,
   C9_deterministic_identity.2.1 _ _ rfl rfl rfl,
   C9_deterministic_identity.2.2 _ _ rfl rfl rfl rfl rfl⟩

/-- Appending a row whose key already occurs in the list violates key
uniqueness. -/
theorem nodupBy_append_dup {ρ κ : Type} [DecidableEq κ] (key : ρ → κ)
    (l : List ρ) (r : ρ) (h : l.any (fun x => key x == key r) = true) :
    nodupBy key (l ++ [r]) = false := by
  induction l with
  | nil => simp at h
  | cons a l ih =>
    simp only [List.any_cons, Bool.or_eq_true, beq_iff_eq] at h
    rcases h with h | h
    · simp [nodupBy, List.any_append, h]
    · have := ih (by simp only [List.any_eq_true] at h ⊢; exact h)
      simp [nodupBy, this]

/-- C2 counterexample: re-ingesting `dupDid` through the bulk append endpoint
is a hard failure, not an "already present" no-op — the duplicate insertion's
uniqueness violation propagates out of `append_config` as an HTTP 409
conflict. -/
theorem C2_counterexample_append_duplicate_hard_failure :
    (append_config (some (Except.ok [dupDid])) none none dupSess).isOk = false ∧
    append_config (some (Except.ok [dupDid])) none none dupSess =
      .error (409, add_dids [dupDid] dupSess) := by
  constructor <;> rfl

/-- C2 amended: for each rule variant, a bulk append containing a row whose
matching-field identity equals an already-stored rule's fails the whole call —
the uniqueness violation surfaces as an HTTP 409 conflict — and nothing
commits, so the durable store still holds the single original rule. -/
theorem C2_amended_append_duplicate_conflict :
    (∀ (s : Sess) (r : AllowedPublicDid), s.current = s.committed →
      (∃ x ∈ s.committed.dids, x.registered_did = r.registered_did) →
      append_config (some (.ok [r])) none none s = .error (409, add_dids [r] s) ∧
      (add_dids [r] s).committed = s.committed ∧
      (add_dids [r] s).events.count Ev.commit = s.events.count Ev.commit) ∧
    (∀ (s : Sess) (r : AllowedSchema), s.current = s.committed →
      (∃ x ∈ s.committed.schemas, allowed_schema_uuid x = allowed_schema_uuid r) →
      append_config none (some (.ok [r])) none s = .error (409, add_schemas [r] s) ∧
      (add_schemas [r] s).committed = s.committed ∧
      (add_schemas [r] s).events.count Ev.commit = s.events.count Ev.commit) ∧
    (∀ (s : Sess) (r : AllowedCredentialDefinition), s.current = s.committed →
      (∃ x ∈ s.committed.creddefs,
        allowed_cred_def_uuid x = allowed_cred_def_uuid r) →
      append_config none none (some (.ok [r])) s = .error (409, add_creddefs [r] s) ∧
      (add_creddefs [r] s).committed = s.committed ∧
      (add_creddefs [r] s).events.count Ev.commit = s.events.count Ev.commit) := by
  refine ⟨fun s r hcur hdup => ?_, fun s r hcur hdup => ?_, fun s r hcur hdup => ?_⟩
  · have hkey : nodupBy (fun x => x.registered_did) (s.current.dids ++ [r]) = false := by
      rw [hcur]
      exact nodupBy_append_dup _ _ _ (by simpa only [List.any_eq_true, beq_iff_eq])
    have htok : tablesOk (add_dids [r] s).current = false := by
      simp [add_dids, tablesOk, hkey]
    have hco : commitSess (add_dids [r] s) = .error (.integrity, add_dids [r] s) := by
      simp [commitSess, htok]
    refine ⟨?_, rfl, ?_⟩
    · simp [append_config, update_full_config, processTable, hco, db_to_http_exception]
    · simp [add_dids, List.count_append]
  · have hkey : nodupBy allowed_schema_uuid (s.current.schemas ++ [r]) = false := by
      rw [hcur]
      exact nodupBy_append_dup _ _ _ (by simpa only [List.any_eq_true, beq_iff_eq])
    have htok : tablesOk (add_schemas [r] s).current = false := by
      simp [add_schemas, tablesOk, hkey]
    have hco : commitSess (add_schemas [r] s) =
        .error (.integrity, add_schemas [r] s) := by
      simp [commitSess, htok]
    refine ⟨?_, rfl, ?_⟩
    · simp [append_config, update_full_config, processTable, hco, db_to_http_exception]
    · simp [add_schemas, List.count_append]
  · have hkey : nodupBy allowed_cred_def_uuid (s.current.creddefs ++ [r]) = false := by
      rw [hcur]
      exact nodupBy_append_dup _ _ _ (by simpa only [List.any_eq_true, beq_iff_eq])
    have htok : tablesOk (add_creddefs [r] s).current = false := by
      simp [add_creddefs, tablesOk, hkey]
    have hco : commitSess (add_creddefs [r] s) =
        .error (.integrity, add_creddefs [r] s) := by
      simp [commitSess, htok]
    refine ⟨?_, rfl, ?_⟩
    · simp [append_config, update_full_config, processTable, hco, db_to_http_exception]
    · simp [add_creddefs, List.count_append]

/-- Witness for C2 amended: the DID leg applied to `dupSess` and `dupDid`. -/
theorem C2_amended_append_duplicate_conflict_witness :
    append_config (some (.ok [dupDid])) none none dupSess =
      .error (409, add_dids [dupDid] dupSess) ∧
    (add_dids [dupDid] dupSess).committed = dupSess.committed ∧
    (add_dids [dupDid] dupSess).events.count Ev.commit =
      dupSess.events.count Ev.commit :=
  C2_amended_append_duplicate_conflict.1 dupSess dupDid rfl
    ⟨dupDid, by simp [dupSess], rfl⟩

/-- C3: a bulk ingestion call with zero files is NOT rejected — in both replace
and append mode, and on both the allow and admin routers, the call returns
success, commits, and runs a reconciliation pass, instead of failing fast with
a client-input error before any store access. -/
theorem C3_zero_files_not_rejected :
    update_full_config none none none emptySess true =
      .ok ({ emptySess with events := [Ev.commit, Ev.reconcile] }, []) ∧
    update_full_config none none none emptySess false =
      .ok ({ emptySess with events := [Ev.commit, Ev.reconcile] }, []) ∧
    admin_update_full_config none none none none emptySess true =
      .ok ({ emptySess with events := [Ev.commit, Ev.reconcile] }, []) ∧
    admin_update_full_config none none none none emptySess false =
      .ok ({ emptySess with events := [Ev.commit, Ev.reconcile] }, []) :=
  ⟨rfl, rfl, rfl, rfl⟩

theorem esf_refl (s : Sess) : extends_sans_finalize s s :=
  ⟨rfl, [], by simp, rfl, rfl, rfl⟩

theorem esf_trans {s1 s2 s3 : Sess} (h1 : extends_sans_finalize s1 s2)
    (h2 : extends_sans_finalize s2 s3) : extends_sans_finalize s1 s3 := by
  obtain ⟨hc1, e1, he1, ha1, hb1, hr1⟩ := h1
  obtain ⟨hc2, e2, he2, ha2, hb2, hr2⟩ := h2
  refine ⟨hc2.trans hc1, e1 ++ e2, ?_, ?_, ?_, ?_⟩ <;>
    simp [he2, he1, List.count_append, ha1, hb1, hr1, ha2, hb2, hr2]

theorem esf_clear_dids (s : Sess) : extends_sans_finalize s (clear_dids s) :=
  ⟨rfl, [Ev.deleteTable .publish_did], rfl, rfl, rfl, rfl⟩

theorem esf_clear_schemas (s : Sess) : extends_sans_finalize s (clear_schemas s) :=
  ⟨rfl, [Ev.deleteTable .schema], rfl, rfl, rfl, rfl⟩

theorem esf_clear_creddefs (s : Sess) : extends_sans_finalize s (clear_creddefs s) :=
  ⟨rfl, [Ev.deleteTable .creddef], rfl, rfl, rfl, rfl⟩

theorem esf_clear_log_entries (s : Sess) :
    extends_sans_finalize s (clear_log_entries s) :=
  ⟨rfl, [Ev.deleteTable .log_entry], rfl, rfl, rfl, rfl⟩

/-- A constant-mapped `addRow` event list contains no finalizing event. -/
theorem count_map_addRow {ρ : Type} (rows : List ρ) (t : TableName) (c : Ev)
    (h : ∀ x, c ≠ Ev.addRow x) :
    (rows.map (fun _ => Ev.addRow t)).count c = 0 := by
  induction rows with
  | nil => rfl
  | cons a rows ih =>
    simp only [List.map_cons, List.count_cons, ih]
    have : (Ev.addRow t == c) = false := by
      cases hc : Ev.addRow t == c
      · rfl
      · exact absurd (eq_of_beq hc).symm (h t)
    simp [this]

theorem esf_add_dids (rows : List AllowedPublicDid) (s : Sess) :
    extends_sans_finalize s (add_dids rows s) :=
  ⟨rfl, rows.map (fun _ => Ev.addRow .publish_did), rfl,
    count_map_addRow rows _ _ (by intro x h; cases h),
    count_map_addRow rows _ _ (by intro x h; cases h),
    count_map_addRow rows _ _ (by intro x h; cases h)⟩

theorem esf_add_schemas (rows : List AllowedSchema) (s : Sess) :
    extends_sans_finalize s (add_schemas rows s) :=
  ⟨rfl, rows.map (fun _ => Ev.addRow .schema), rfl,
    count_map_addRow rows _ _ (by intro x h; cases h),
    count_map_addRow rows _ _ (by intro x h; cases h),
    count_map_addRow rows _ _ (by intro x h; cases h)⟩

theorem esf_add_creddefs (rows : List AllowedCredentialDefinition) (s : Sess) :
    extends_sans_finalize s (add_creddefs rows s) :=
  ⟨rfl, rows.map (fun _ => Ev.addRow .creddef), rfl,
    count_map_addRow rows _ _ (by intro x h; cases h),
    count_map_addRow rows _ _ (by intro x h; cases h),
    count_map_addRow rows _ _ (by intro x h; cases h)⟩

theorem esf_add_log_entries (rows : List AllowedLogEntry) (s : Sess) :
    extends_sans_finalize s (add_log_entries rows s) :=
  ⟨rfl, rows.map (fun _ => Ev.addRow .log_entry), rfl,
    count_map_addRow rows _ _ (by intro x h; cases h),
    count_map_addRow rows _ _ (by intro x h; cases h),
    count_map_addRow rows _ _ (by intro x h; cases h)⟩

/-- A successful table-processing step only stages work. -/
theorem processTable_ok_esf {ρ : Type} {file : Option (Except String (List ρ))}
    {clear : Sess → Sess} {stage : List ρ → Sess → Sess} {dc : Bool}
    {s s1 : Sess} {b : Bool}
    (hclear : ∀ s2, extends_sans_finalize s2 (clear s2))
    (hstage : ∀ rows s2, extends_sans_finalize s2 (stage rows s2))
    (h : processTable file clear stage dc s = .ok (s1, b)) :
    extends_sans_finalize s s1 := by
  cases file with
  | none =>
    simp only [processTable, Except.ok.injEq, Prod.mk.injEq] at h
    rw [← h.1]
    exact esf_refl s
  | some f =>
    cases f with
    | error m => simp [processTable] at h
    | ok rows =>
      cases dc with
      | false =>
        simp only [processTable, Bool.false_eq_true, if_false, Except.ok.injEq,
          Prod.mk.injEq] at h
        rw [← h.1]
        exact hstage rows s
      | true =>
        simp only [processTable, if_true, Except.ok.injEq, Prod.mk.injEq] at h
        rw [← h.1]
        exact esf_trans (hclear s) (hstage rows (clear s))

/-- C4: when any table's parse/insert step raises, `update_full_config`
propagates the error — nothing commits and reconciliation is not triggered —
but the code performs NO rollback call (the repository's own test expects
`db.rollback()` exactly once); on the success path the batch commits exactly
once and the reconciliation pass runs exactly once, strictly after the
commit. -/
theorem C4_failure_aborts_without_rollback_call :
    (∀ (s : Sess) (m : String) (dc : Bool),
      update_full_config (some (.error m)) none none s dc =
        .error (.other m, if dc then clear_dids s else s) ∧
      (if dc then clear_dids s else s).committed = s.committed ∧
      (if dc then clear_dids s else s).events.count Ev.commit =
        s.events.count Ev.commit ∧
      (if dc then clear_dids s else s).events.count Ev.reconcile =
        s.events.count Ev.reconcile ∧
      (if dc then clear_dids s else s).events.count Ev.rollback =
        s.events.count Ev.rollback) ∧
    (∀ (pd : Option (Except String (List AllowedPublicDid)))
      (sch : Option (Except String (List AllowedSchema)))
      (cd : Option (Except String (List AllowedCredentialDefinition)))
      (s : Sess) (dc : Bool) (s4 : Sess) (mods : List String),
      update_full_config pd sch cd s dc = .ok (s4, mods) →
      ∃ pre, s4.events = pre ++ [Ev.commit, Ev.reconcile] ∧
        pre.count Ev.commit = s.events.count Ev.commit ∧
        pre.count Ev.reconcile = s.events.count Ev.reconcile ∧
        s4.events.count Ev.rollback = s.events.count Ev.rollback) := by
  constructor
  · intro s m dc
    cases dc
    · exact ⟨rfl, rfl, rfl, rfl, rfl⟩
    · refine ⟨rfl, rfl, ?_, ?_, ?_⟩ <;>
        simp [clear_dids, List.count_append,
          show ([Ev.deleteTable TableName.publish_did].count Ev.commit) = 0 from rfl,
          show ([Ev.deleteTable TableName.publish_did].count Ev.reconcile) = 0 from rfl,
          show ([Ev.deleteTable TableName.publish_did].count Ev.rollback) = 0 from rfl]
  · intro pd sch cd s dc s4 mods h
    unfold update_full_config at h
    cases h1 : processTable pd clear_dids add_dids dc s with
    | error e => rw [h1] at h; simp at h
    | ok p1 =>
      obtain ⟨s1, m1⟩ := p1
      rw [h1] at h
      dsimp only at h
      cases h2 : processTable sch clear_schemas add_schemas dc s1 with
      | error e => rw [h2] at h; simp at h
      | ok p2 =>
        obtain ⟨s2, m2⟩ := p2
        rw [h2] at h
        dsimp only at h
        cases h3 : processTable cd clear_creddefs add_creddefs dc s2 with
        | error e => rw [h3] at h; simp at h
        | ok p3 =>
          obtain ⟨s3, m3⟩ := p3
          rw [h3] at h
          dsimp only at h
          cases h4 : commitSess s3 with
          | error e => rw [h4] at h; simp at h
          | ok s5 =>
            rw [h4] at h
            dsimp only at h
            simp only [Except.ok.injEq, Prod.mk.injEq] at h
            have hs4 : s4 = updated_allowed_ev s5 := h.1.symm
            have hcs : s5.events = s3.events ++ [Ev.commit] := by
              unfold commitSess at h4
              by_cases ht : tablesOk s3.current = true
              · rw [if_pos ht] at h4
                injection h4 with h5
                rw [← h5]
              · rw [if_neg ht] at h4
                cases h4
            have hesf : extends_sans_finalize s s3 :=
              esf_trans (processTable_ok_esf esf_clear_dids esf_add_dids h1)
                (esf_trans (processTable_ok_esf esf_clear_schemas esf_add_schemas h2)
                  (processTable_ok_esf esf_clear_creddefs esf_add_creddefs h3))
            obtain ⟨hcom, e, he, ha, hb, hr⟩ := hesf
            have hev : s4.events = s3.events ++ [Ev.commit, Ev.reconcile] := by
              rw [hs4]
              show s5.events ++ [Ev.reconcile] = s3.events ++ [Ev.commit, Ev.reconcile]
              rw [hcs, List.append_assoc]
              rfl
            refine ⟨s3.events, hev, ?_, ?_, ?_⟩
            · simp [he, List.count_append, ha]
            · simp [he, List.count_append, hb]
            · simp [hev, he, List.count_append, hr,
                show ([Ev.commit, Ev.reconcile].count Ev.rollback) = 0 from rfl]

/-- Witness for C4: the success leg applied to a concrete one-file replace. -/
theorem C4_failure_aborts_without_rollback_call_witness :
    ∃ pre, replacedSess.events = pre ++ [Ev.commit, Ev.reconcile] ∧
      pre.count Ev.commit = emptySess.events.count Ev.commit ∧
      pre.count Ev.reconcile = emptySess.events.count Ev.reconcile ∧
      replacedSess.events.count Ev.rollback = emptySess.events.count Ev.rollback :=
  C4_failure_aborts_without_rollback_call.2 (some (.ok [dupDid])) none none
    emptySess true replacedSess ["AllowedPublicDid"] rfl

end Endorser
